import Mathlib

/-!
Verification of the textshell pipeline core (src/pipes.ts, src/commands.ts).

The embedding models:
* the stage factories `sort`, `uniq`, `help` and the registry `PIPES`;
* the parser `parsePipe` / `parsePipeline` (splitting on `|`, trimming,
  tokenising on whitespace runs, registry lookup, error propagation);
* the executor (left fold of the parsed stages over the line sequence).

Platform primitives used by the source are modelled from their ECMAScript
specification where they matter:
* `String.prototype.split` with a one-character separator (`splitOnChar`),
  which returns `[""]` on the empty string;
* `String.prototype.trim` (`trimChars`) and splitting on `/\s+/`
  (`jsSplitWs`), with the full ECMAScript whitespace class
  (`isJsWhitespace`: TAB, LF, VT, FF, CR, space, NBSP, the Unicode space
  separators, LS, PS and the BOM);
* property lookup on the registry object literal (`PIPES`): a miss on the
  own keys walks the prototype chain, so the names of `Object.prototype`
  members yield truthy inherited values and do not trigger the
  unknown-command throw; calling those members as `factory(args)` in
  strict module code (`this` is `undefined`) either returns a non-function
  value (`toString`, `constructor`) or throws a `TypeError`
  (`callProtoMember`);
* property assignment `acc[line] = true` (`insertKey`): the key
  `"__proto__"` hits the inherited `Object.prototype` accessor and creates
  no own property, every other key is created on first assignment;
* `Object.keys` enumeration order (`uniqRun`): array-index keys first in
  ascending numeric order, then the remaining string keys in insertion
  order (ES2015 OrdinaryOwnPropertyKeys);
* `Array.prototype.toSorted`, a stable comparator sort, modelled by
  `List.insertionSort` (stable, and stable sorts by a total preorder
  comparator agree as functions);
* `Intl.Collator(undefined, {numeric: true}).compare`, modelled from the
  spec: strings are cut into maximal digit runs and non-digit chunks;
  digit runs compare by numeric value (ties by their literal characters),
  non-digit chunks compare by code points, and digit runs order before
  non-digit chunks.
-/

namespace Textshell

/-- A parsed pipeline stage, defunctionalised: the closures the source
factories return are `sortAsc`/`sortDesc` (the two comparator choices of
`sort`), the dedup closure of `uniq`, and the identity-with-side-effect
closure of `help`. -/
inductive Pipe where
  | sortAsc
  | sortDesc
  | uniq
  | help
deriving DecidableEq

/-- Numeric value of a run of decimal digit characters (most significant
first), as JavaScript reads a digit run. -/
def digitsVal (cs : List Char) : Nat :=
  cs.foldl (fun n c => n * 10 + (c.toNat - 48)) 0

/-- A segment of a string under the numeric-aware collator: a maximal run
of decimal digits (with its numeric value) or a maximal digit-free chunk. -/
inductive Seg where
  | num (val : Nat) (raw : List Char)
  | chunk (text : List Char)
deriving DecidableEq

/-- Sort key of a segment: digit runs order before non-digit chunks, digit
runs compare by value then by their literal characters, chunks compare by
code points. -/
def Seg.key : Seg → Nat ×ₗ Nat ×ₗ List Char
  | .num v r => toLex (0, toLex (v, r))
  | .chunk t => toLex (1, toLex (0, t))

/-- Prepend one character to a segment list, extending the first segment
when the kinds match, so that `segsOf` produces maximal runs. -/
def pushChar (c : Char) (segs : List Seg) : List Seg :=
  if c.isDigit then
    match segs with
    | Seg.num _ raw :: rest => Seg.num (digitsVal (c :: raw)) (c :: raw) :: rest
    | _ => Seg.num (digitsVal [c]) [c] :: segs
  else
    match segs with
    | Seg.chunk t :: rest => Seg.chunk (c :: t) :: rest
    | _ => Seg.chunk [c] :: segs

/-- Cut a character list into maximal digit runs and digit-free chunks. -/
def segsOf (cs : List Char) : List Seg :=
  cs.foldr pushChar []

/-- Collation key of a string: the lexicographic list of its segment keys. -/
def strKey (s : String) : List (Nat ×ₗ Nat ×ₗ List Char) :=
  (segsOf s.data).map Seg.key

/-- Modelled from the spec: the comparator of
`Intl.Collator(undefined, {numeric: true})` as a total preorder —
`collatorLe a b` iff the collator reports `a` before or equal to `b`.
Embedded numeric substrings compare by numeric value, not lexicographically. -/
def collatorLe (a b : String) : Prop :=
  strKey a ≤ strKey b

instance : DecidableRel collatorLe :=
  fun a b => decidable_of_iff (strKey a ≤ strKey b) Iff.rfl

instance : IsTotal String collatorLe :=
  ⟨fun a b => le_total (strKey a) (strKey b)⟩

instance : IsTrans String collatorLe :=
  ⟨fun _ _ _ hab hbc => le_trans hab hbc⟩

/-- The reversed comparator, produced by the source for `sort -d` / `sort
desc` as `(a, b) => -collator.compare(a, b)`. -/
def collatorGe (a b : String) : Prop :=
  collatorLe b a

instance : DecidableRel collatorGe :=
  fun a b => decidable_of_iff (strKey b ≤ strKey a) Iff.rfl

instance : IsTotal String collatorGe :=
  ⟨fun a b => le_total (strKey b) (strKey a)⟩

instance : IsTrans String collatorGe :=
  ⟨fun _ _ _ hab hbc => le_trans hbc hab⟩

/-- The line transform of an ascending `sort` stage:
`lines.toSorted(collator.compare)` (a stable comparator sort). -/
def sortAscRun (lines : List String) : List String :=
  lines.insertionSort collatorLe

/-- The line transform of a descending `sort` stage:
`lines.toSorted((a, b) => -collator.compare(a, b))`. -/
def sortDescRun (lines : List String) : List String :=
  lines.insertionSort collatorGe

/-- One step of the record building in `uniq`: `acc[line] = true`. The key
`"__proto__"` invokes the inherited `Object.prototype` accessor setter
(which ignores non-object values) and creates no own property; every other
key is created as an own data property on first assignment (shadowing any
inherited `Object.prototype` member of that name) and a later assignment
leaves the key order unchanged. -/
def insertKey (ks : List String) (k : String) : List String :=
  if k = "__proto__" then ks
  else if k ∈ ks then ks else ks ++ [k]

/-- The own property keys of the record `lines.reduce((acc, line) => {
acc[line] = true; return acc; }, {})`, in insertion order (before the
array-index reordering applied by `Object.keys`). -/
def recordKeys (lines : List String) : List String :=
  lines.foldl insertKey []

/-- Whether a string is an ECMAScript array index: the canonical decimal
numeral of some `n` with `0 ≤ n < 2^32 - 1` (no leading zero except for
`"0"` itself). Such property keys are enumerated first, in ascending
numeric order. -/
def isArrayIndex (s : String) : Bool :=
  match s.data with
  | [] => false
  | c :: cs =>
    (c :: cs).all Char.isDigit && (c ≠ '0' || cs.isEmpty)
      && digitsVal (c :: cs) < 4294967295

/-- Numeric order on array-index strings, the order `Object.keys` uses for
the array-index keys. -/
def numKeyLe (a b : String) : Prop :=
  digitsVal a.data ≤ digitsVal b.data

instance : DecidableRel numKeyLe :=
  fun a b => decidable_of_iff (digitsVal a.data ≤ digitsVal b.data) Iff.rfl

instance : IsTotal String numKeyLe :=
  ⟨fun a b => Nat.le_total (digitsVal a.data) (digitsVal b.data)⟩

instance : IsTrans String numKeyLe :=
  ⟨fun _ _ _ hab hbc => Nat.le_trans hab hbc⟩

/-- The line transform of the `uniq` stage: build a record keyed by the
lines, then take `Object.keys`, whose enumeration order puts array-index
keys first in ascending numeric order and the remaining keys in insertion
order. -/
def uniqRun (lines : List String) : List String :=
  let ks := recordKeys lines
  (ks.filter fun k => isArrayIndex k).insertionSort numKeyLe
    ++ ks.filter fun k => !isArrayIndex k

/-- Run one stage on a line sequence. -/
def runPipe : Pipe → List String → List String
  | .sortAsc, lines => sortAscRun lines
  | .sortDesc, lines => sortDescRun lines
  | .uniq, lines => uniqRun lines
  | .help, lines => lines

/-- The `sort` factory: `match(args)` accepts exactly `[]`/`["asc"]`
(collator order) and `["-d"]`/`["desc"]` (reversed collator order), and
otherwise throws `Invalid arguments`. -/
def sort (args : List String) : Except String Pipe :=
  if args = [] ∨ args = ["asc"] then .ok .sortAsc
  else if args = ["-d"] ∨ args = ["desc"] then .ok .sortDesc
  else .error "Invalid arguments"

/-- The `uniq` factory: throws `Invalid arguments` on any argument. -/
def uniq (args : List String) : Except String Pipe :=
  if args.length > 0 then .error "Invalid arguments" else .ok .uniq

/-- The `help` factory: ignores its arguments and returns the stage that
displays the help document (a fire-and-forget editor side effect outside
the data path) and returns its input unchanged. -/
def help (_args : List String) : Except String Pipe :=
  .ok .help

/-- A JavaScript value stored as a parsed pipe: a genuine stage closure
(`fn`), or a non-function value obtained when the registry lookup hit a
member inherited from `Object.prototype` — the string returned by
`toString`, or the array returned by `Object` (the `constructor`). -/
inductive PipeVal where
  | fn (p : Pipe)
  | str (s : String)
  | arr (a : List String)
deriving DecidableEq

/-- The result of the property lookup `PIPES[pipeName]` on the registry
object literal: a factory for an own key, a truthy inherited value for the
name of an `Object.prototype` member, and `undefined` otherwise (the only
case in which `if (!factory)` throws). -/
inductive Lookup where
  | factory (f : List String → Except String Pipe)
  | protoMember (name : String)
  | undefined

/-- The own property names of `Object.prototype` (ECMA-262, including the
Annex B accessors): a lookup miss on the registry's own keys walks the
prototype chain and finds these, all with truthy values. -/
def objectProtoMembers : List String :=
  ["constructor", "hasOwnProperty", "isPrototypeOf", "propertyIsEnumerable",
    "toLocaleString", "toString", "valueOf", "__proto__",
    "__defineGetter__", "__defineSetter__", "__lookupGetter__", "__lookupSetter__"]

/-- The registry `PIPES = { help, sort, uniq }`: command-name lookup,
case-sensitive exact match on the own keys, falling through to the
prototype chain. -/
def PIPES (name : String) : Lookup :=
  if name = "help" then .factory help
  else if name = "sort" then .factory sort
  else if name = "uniq" then .factory uniq
  else if name ∈ objectProtoMembers then .protoMember name
  else .undefined

/-- Modelled from ECMAScript: the result of `factory(args)` when `factory`
is the `Object.prototype` member named `name`, called as a plain function
in strict module code (`this` is `undefined`). `toString` returns the
string `"[object Undefined]"`; `constructor` is `Object`, and
`Object(args)` returns the `args` array itself; the `__proto__` accessor
yields the non-callable `Object.prototype`, so the call itself throws;
the remaining members coerce `this` and throw. The `TypeError` message
texts are host-defined; the model fixes the V8 wording. -/
def callProtoMember (name : String) (args : List String) : Except String PipeVal :=
  if name = "toString" then .ok (.str "[object Undefined]")
  else if name = "constructor" then .ok (.arr args)
  else if name = "__proto__" then .error "factory is not a function"
  else if name = "toLocaleString" then
    .error "Cannot read properties of undefined (reading 'toString')"
  else .error "Cannot convert undefined or null to object"

/-- `text.split(sep)` for a one-character separator, as ECMAScript defines
it: in particular the empty string splits to `[""]`, and adjacent
separators produce empty chunks. -/
def splitOnChar (sep : Char) (cs : List Char) : List (List Char) :=
  cs.foldr
    (fun c acc =>
      match acc with
      | [] => [[]]
      | t :: ts => if c = sep then [] :: t :: ts else (c :: t) :: ts)
    [[]]

/-- Modelled from ECMAScript: the characters stripped by
`String.prototype.trim` and matched by `\s` — the WhiteSpace and
LineTerminator classes: TAB, LF, VT, FF, CR, space, NBSP, U+1680, the
U+2000..U+200A space separators, LS, PS, U+202F, U+205F, U+3000 and the
BOM U+FEFF. -/
def isJsWhitespace (c : Char) : Bool :=
  c.toNat == 9 || c.toNat == 10 || c.toNat == 11 || c.toNat == 12
    || c.toNat == 13 || c.toNat == 32 || c.toNat == 160 || c.toNat == 5760
    || (8192 ≤ c.toNat && c.toNat ≤ 8202)
    || c.toNat == 8232 || c.toNat == 8233 || c.toNat == 8239
    || c.toNat == 8287 || c.toNat == 12288 || c.toNat == 65279

/-- `text.trim()`: strip leading and trailing whitespace. -/
def trimChars (cs : List Char) : List Char :=
  ((cs.dropWhile isJsWhitespace).reverse.dropWhile isJsWhitespace).reverse

/-- Split a character list at whitespace characters, keeping the empty
chunks between adjacent whitespace characters. -/
def wsSplit (cs : List Char) : List (List Char) :=
  cs.foldr
    (fun c acc =>
      match acc with
      | [] => [[]]
      | t :: ts => if isJsWhitespace c then [] :: t :: ts else (c :: t) :: ts)
    [[]]

/-- `trimmed.split(/\s+/)` on an already-trimmed string: the empty string
yields `[""]`, any other trimmed string yields its maximal whitespace-free
tokens. -/
def jsSplitWs (cs : List Char) : List (List Char) :=
  if cs.isEmpty then [[]] else (wsSplit cs).filter fun t => !t.isEmpty

/-- The command name of a stage substring: the first token of
`text.trim().split(/\s+/)` (the empty string when the substring is empty). -/
def pipeName (text : String) : String :=
  String.mk ((jsSplitWs (trimChars text.data)).headD [])

/-- The argument tokens of a stage substring: the remaining tokens of
`text.trim().split(/\s+/)`. -/
def pipeArgs (text : String) : List String :=
  ((jsSplitWs (trimChars text.data)).tail).map String.mk

/-- `parsePipe`: tokenise one stage substring, look the command name up in
the registry — `if (!factory)` throws `Unknown command: <name>` only when
the lookup misses both the own keys and the prototype chain — and invoke
the found value on the argument tokens. -/
def parsePipe (text : String) : Except String PipeVal :=
  match PIPES (pipeName text) with
  | .undefined => .error ("Unknown command: " ++ pipeName text)
  | .factory f =>
    match f (pipeArgs text) with
    | .error e => .error e
    | .ok p => .ok (.fn p)
  | .protoMember m => callProtoMember m (pipeArgs text)

/-- `.map(parsePipe)` under the source's `try`/`catch`: parse the stage
substrings left to right, the first thrown error aborting the whole parse. -/
def parseStages : List String → Except String (List PipeVal)
  | [] => .ok []
  | s :: ss =>
    match parsePipe s with
    | .error e => .error e
    | .ok p =>
      match parseStages ss with
      | .error e => .error e
      | .ok ps => .ok (p :: ps)

/-- The identity pipeline `NOOP`, represented as the empty stage list
(running it returns the input unchanged). -/
def NOOP : List PipeVal := []

/-- The stage substrings of a pipeline text:
`text.split('|').map((c) => c.trim())`. -/
def pipeStrings (text : String) : List String :=
  (splitOnChar '|' text.data).map fun cs => String.mk (trimChars cs)

/-- `parsePipeline(text, {check})`: split on `|`, trim each substring,
parse every stage (first failure wins); on success return `NOOP` when the
check flag is set or no stages resulted, and otherwise the stage list. -/
def parsePipeline (text : String) (check : Bool) :
    Except String (List PipeVal) :=
  match parseStages (pipeStrings text) with
  | .error e => .error e
  | .ok pipes => if check || pipes.isEmpty then .ok NOOP else .ok pipes

/-- The executor: `pipes.reduce((inp, pipe) => pipe(inp), lines)`, a left
fold feeding each stage's output to the next stage. -/
def runPipeline (pipes : List Pipe) (lines : List String) : List String :=
  pipes.foldl (fun inp p => runPipe p inp) lines

/-- Running one stage with an explicit error channel: the translation of
each stage's closure body, none of which contains a `throw`, so every
branch returns `.ok`. -/
def runPipeE : Pipe → List String → Except String (List String)
  | .sortAsc, lines => .ok (sortAscRun lines)
  | .sortDesc, lines => .ok (sortDescRun lines)
  | .uniq, lines => .ok (uniqRun lines)
  | .help, lines => .ok lines

/-- Running one parsed pipe value with an explicit error channel: a
genuine stage runs its closure body; applying a non-function value —
`pipe(inp)` on the string or array a prototype-chain lookup produced —
throws a `TypeError` (host-defined message, V8 wording). -/
def runPipeValE : PipeVal → List String → Except String (List String)
  | .fn p, lines => runPipeE p lines
  | .str _, _ => .error "pipe is not a function"
  | .arr _, _ => .error "pipe is not a function"

/-- The executor with an explicit error channel, stopping at the first
stage error. -/
def runPipelineE : List PipeVal → List String → Except String (List String)
  | [], lines => .ok lines
  | v :: vs, lines =>
    match runPipeValE v lines with
    | .error e => .error e
    | .ok out => runPipelineE vs out

/-- The distinct elements of a list in first-occurrence order (the order
the spec asserts for `uniq`). -/
def dedupFirst : List String → List String
  | [] => []
  | x :: xs => x :: (dedupFirst xs).filter fun y => y ≠ x

/-! ### Lemmas about `dedupFirst` and the record keys of `uniq` -/

theorem dedupFirst_nodup : ∀ L : List String, (dedupFirst L).Nodup
  | [] => List.nodup_nil
  | x :: xs => by
    simp only [dedupFirst, List.nodup_cons]
    refine ⟨fun hx => ?_, (dedupFirst_nodup xs).filter _⟩
    have := List.of_mem_filter hx
    simp at this

theorem mem_dedupFirst {y : String} : ∀ {L : List String}, y ∈ dedupFirst L ↔ y ∈ L
  | [] => Iff.rfl
  | x :: xs => by
    simp only [dedupFirst, List.mem_cons, List.mem_filter]
    constructor
    · rintro (rfl | ⟨hmem, _⟩)
      · exact .inl rfl
      · exact .inr (mem_dedupFirst.mp hmem)
    · rintro (rfl | hmem)
      · exact .inl rfl
      · by_cases hyx : y = x
        · exact .inl hyx
        · exact .inr ⟨mem_dedupFirst.mpr hmem, by simp [hyx]⟩

theorem filter_dedup_of_proto (acc : List String) (l : List String) :
    (l.filter fun y => y ≠ "__proto__").filter
        (fun y => y ∉ acc ∧ y ≠ "__proto__")
      = l.filter fun y => y ∉ acc ∧ y ≠ "__proto__" := by
  rw [List.filter_filter]
  refine List.filter_congr fun a _ => ?_
  by_cases h1 : a = "__proto__" <;> by_cases h2 : a ∈ acc <;> simp [h1, h2]

theorem filter_dedup_of_mem {acc : List String} {x : String} (hx : x ∈ acc)
    (l : List String) :
    (l.filter fun y => y ≠ x).filter (fun y => y ∉ acc ∧ y ≠ "__proto__")
      = l.filter fun y => y ∉ acc ∧ y ≠ "__proto__" := by
  rw [List.filter_filter]
  refine List.filter_congr fun a _ => ?_
  by_cases h1 : a = x
  · subst h1
    simp [hx]
  · simp [h1]

theorem filter_dedup_of_not_mem {acc : List String} {x : String}
    (l : List String) :
    (l.filter fun y => y ≠ x).filter (fun y => y ∉ acc ∧ y ≠ "__proto__")
      = l.filter fun y => y ∉ acc ++ [x] ∧ y ≠ "__proto__" := by
  rw [List.filter_filter]
  refine List.filter_congr fun a _ => ?_
  by_cases h1 : a = x <;> by_cases h2 : a ∈ acc <;> by_cases h3 : a = "__proto__" <;>
    simp [h1, h2, h3]

theorem foldl_insertKey : ∀ (L acc : List String),
    L.foldl insertKey acc
      = acc ++ (dedupFirst L).filter fun y => y ∉ acc ∧ y ≠ "__proto__"
  | [], acc => by simp [dedupFirst]
  | x :: xs, acc => by
    by_cases hp : x = "__proto__"
    · have hstep : insertKey acc x = acc := by simp [insertKey, hp]
      have hfold : (x :: xs).foldl insertKey acc = xs.foldl insertKey acc := by
        rw [List.foldl_cons, hstep]
      rw [hfold, foldl_insertKey xs acc]
      simp only [dedupFirst, List.filter_cons]
      have hxf : (decide (x ∉ acc ∧ x ≠ "__proto__")) = false := by simp [hp]
      rw [hxf]
      simp only [Bool.false_eq_true, if_false]
      subst hp
      rw [filter_dedup_of_proto]
    · by_cases hx : x ∈ acc
      · have hstep : insertKey acc x = acc := by simp [insertKey, hp, hx]
        have hfold : (x :: xs).foldl insertKey acc = xs.foldl insertKey acc := by
          rw [List.foldl_cons, hstep]
        rw [hfold, foldl_insertKey xs acc]
        simp only [dedupFirst, List.filter_cons]
        have hxf : (decide (x ∉ acc ∧ x ≠ "__proto__")) = false := by simp [hx]
        rw [hxf]
        simp only [Bool.false_eq_true, if_false, filter_dedup_of_mem hx]
      · have hstep : insertKey acc x = acc ++ [x] := by simp [insertKey, hp, hx]
        have hfold : (x :: xs).foldl insertKey acc = xs.foldl insertKey (acc ++ [x]) := by
          rw [List.foldl_cons, hstep]
        rw [hfold, foldl_insertKey xs (acc ++ [x])]
        simp only [dedupFirst, List.filter_cons]
        have hxf : (decide (x ∉ acc ∧ x ≠ "__proto__")) = true := by simp [hx, hp]
        rw [hxf]
        simp only [if_true, filter_dedup_of_not_mem]
        simp [List.append_assoc]

theorem recordKeys_eq_dedupFirst (L : List String) :
    recordKeys L = (dedupFirst L).filter fun y => y ≠ "__proto__" := by
  rw [recordKeys, foldl_insertKey L []]
  rw [List.nil_append]
  refine List.filter_congr fun a _ => ?_
  simp

theorem recordKeys_nodup (L : List String) : (recordKeys L).Nodup := by
  rw [recordKeys_eq_dedupFirst]; exact (dedupFirst_nodup L).filter _

theorem mem_recordKeys {y : String} {L : List String} :
    y ∈ recordKeys L ↔ y ∈ L ∧ y ≠ "__proto__" := by
  rw [recordKeys_eq_dedupFirst, List.mem_filter]
  simp [mem_dedupFirst]

/-! ### Properties of the `uniq` transform -/

theorem mem_uniqRun {x : String} {L : List String} :
    x ∈ uniqRun L ↔ x ∈ L ∧ x ≠ "__proto__" := by
  simp only [uniqRun, List.mem_append, List.mem_insertionSort _, List.mem_filter]
  constructor
  · rintro (⟨hm, _⟩ | ⟨hm, _⟩) <;> exact mem_recordKeys.mp hm
  · intro hm
    by_cases hidx : isArrayIndex x
    · exact .inl ⟨mem_recordKeys.mpr hm, by simp [hidx]⟩
    · exact .inr ⟨mem_recordKeys.mpr hm, by simp [hidx]⟩

theorem uniqRun_nodup (L : List String) : (uniqRun L).Nodup := by
  have hks := recordKeys_nodup L
  refine List.Nodup.append ?_ (hks.filter _) ?_
  · exact (List.perm_insertionSort numKeyLe _).nodup_iff.mpr (hks.filter _)
  · intro a ha hb
    have ha' := (List.mem_insertionSort _).mp ha
    have h1 := (List.mem_filter.mp ha').2
    have h2 := (List.mem_filter.mp hb).2
    simp at h1 h2
    simp [h1] at h2

theorem uniqRun_filter_idx (L : List String) :
    ((uniqRun L).filter fun k => isArrayIndex k)
      = ((recordKeys L).filter fun k => isArrayIndex k).insertionSort numKeyLe := by
  have h1 : (((recordKeys L).filter fun k => isArrayIndex k).insertionSort
        numKeyLe).filter (fun k => isArrayIndex k)
      = ((recordKeys L).filter fun k => isArrayIndex k).insertionSort numKeyLe :=
    List.filter_eq_self.mpr fun a ha =>
      (List.mem_filter.mp ((List.mem_insertionSort _).mp ha)).2
  have h2 : ((recordKeys L).filter fun k => !isArrayIndex k).filter
      (fun k => isArrayIndex k) = [] :=
    List.filter_eq_nil_iff.mpr fun a ha => by
      have := (List.mem_filter.mp ha).2
      simp_all
  show ((((recordKeys L).filter fun k => isArrayIndex k).insertionSort numKeyLe)
      ++ (recordKeys L).filter fun k => !isArrayIndex k).filter
        (fun k => isArrayIndex k) = _
  rw [List.filter_append, h1, h2, List.append_nil]

theorem uniqRun_filter_nonidx (L : List String) :
    ((uniqRun L).filter fun k => !isArrayIndex k)
      = (recordKeys L).filter fun k => !isArrayIndex k := by
  have h1 : (((recordKeys L).filter fun k => isArrayIndex k).insertionSort
        numKeyLe).filter (fun k => !isArrayIndex k) = [] :=
    List.filter_eq_nil_iff.mpr fun a ha => by
      have := (List.mem_filter.mp ((List.mem_insertionSort _).mp ha)).2
      simp_all
  have h2 : ((recordKeys L).filter fun k => !isArrayIndex k).filter
      (fun k => !isArrayIndex k) = (recordKeys L).filter fun k => !isArrayIndex k :=
    List.filter_eq_self.mpr fun a ha => (List.mem_filter.mp ha).2
  show ((((recordKeys L).filter fun k => isArrayIndex k).insertionSort numKeyLe)
      ++ (recordKeys L).filter fun k => !isArrayIndex k).filter
        (fun k => !isArrayIndex k) = _
  rw [List.filter_append, h1, h2, List.nil_append]

theorem uniqRun_idx_sorted (L : List String) :
    List.Sorted numKeyLe ((uniqRun L).filter fun k => isArrayIndex k) := by
  rw [uniqRun_filter_idx]
  exact List.sorted_insertionSort numKeyLe _

theorem uniqRun_parts (L : List String) :
    uniqRun L = ((uniqRun L).filter fun k => isArrayIndex k)
      ++ ((uniqRun L).filter fun k => !isArrayIndex k) := by
  rw [uniqRun_filter_idx, uniqRun_filter_nonidx]
  rfl

/-! ### Parser error propagation -/

theorem parsePipe_unknown {s : String} (h : PIPES (pipeName s) = Lookup.undefined) :
    parsePipe s = .error ("Unknown command: " ++ pipeName s) := by
  unfold parsePipe
  rw [h]

theorem parseStages_first_error : ∀ (ss : List String) (i : Nat) (e : String),
    i < ss.length →
    (∀ j, j < i → ∃ p, parsePipe (ss.getD j "") = .ok p) →
    parsePipe (ss.getD i "") = .error e →
    parseStages ss = .error e
  | [], i, _, hi, _, _ => absurd hi (by simp)
  | s :: ss, 0, e, _, _, herr => by
    rw [List.getD_cons_zero] at herr
    unfold parseStages
    rw [herr]
  | s :: ss, i + 1, e, hi, hok, herr => by
    obtain ⟨p, hp⟩ := hok 0 (Nat.succ_pos i)
    rw [List.getD_cons_zero] at hp
    rw [List.getD_cons_succ] at herr
    have hrest := parseStages_first_error ss i e (by simpa using hi)
      (fun j hj => by
        have hj' := hok (j + 1) (by omega)
        rwa [List.getD_cons_succ] at hj') herr
    unfold parseStages
    rw [hp, hrest]

theorem runPipeE_ok (p : Pipe) (L : List String) :
    runPipeE p L = .ok (runPipe p L) := by
  cases p <;> rfl

/-! ### Claim theorems -/

/-- C1, counterexample: on the input `["b", "1"]` the `uniq` stage does not
return the distinct lines in first-occurrence order — the array-index-like
line `"1"` is moved to the front by `Object.keys` — and on `["__proto__"]`
the output is empty, because `acc["__proto__"] = true` creates no own
property, so the line is not even a subset-preserved output. -/
theorem uniq_not_first_occurrence_cex :
    uniqRun ["b", "1"] = ["1", "b"]
      ∧ uniqRun ["b", "1"] ≠ ["b", "1"]
      ∧ dedupFirst ["b", "1"] = ["b", "1"]
      ∧ uniqRun ["__proto__"] = []
      ∧ ("__proto__" : String) ∈ (["__proto__"] : List String) := by
  refine ⟨by decide, by decide, by decide, by decide, by decide⟩

/-- C1 (amended): the `uniq` stage (built by the `uniq` factory with no
arguments) returns each line of the input at most once, and exactly the
lines occurring in the input other than `"__proto__"` (which the record
assignment silently drops); the output is the array-index-like distinct
lines in ascending numeric order followed by the remaining distinct lines
in first-occurrence order (rather than all distinct lines in
first-occurrence order). -/
theorem uniq_stage_amended_spec (L : List String) :
    uniq [] = .ok Pipe.uniq
      ∧ runPipe Pipe.uniq L = uniqRun L
      ∧ (uniqRun L).Nodup
      ∧ (∀ x, x ∈ uniqRun L ↔ x ∈ L ∧ x ≠ "__proto__")
      ∧ uniqRun L = ((uniqRun L).filter fun k => isArrayIndex k)
          ++ ((uniqRun L).filter fun k => !isArrayIndex k)
      ∧ List.Sorted numKeyLe ((uniqRun L).filter fun k => isArrayIndex k)
      ∧ ((uniqRun L).filter fun k => !isArrayIndex k)
          = ((dedupFirst L).filter fun y => y ≠ "__proto__").filter
              fun k => !isArrayIndex k :=
  ⟨rfl, rfl, uniqRun_nodup L, fun _ => mem_uniqRun, uniqRun_parts L,
    uniqRun_idx_sorted L,
    by rw [uniqRun_filter_nonidx, recordKeys_eq_dedupFirst]⟩

/-- C2: the code disagrees with the claim — `"".split('|')` yields `[""]`,
so parsing empty (or whitespace-only) pipeline text reaches the registry
lookup with the empty command name and fails with `Unknown command: `
instead of returning the identity pipeline; the `pipes.length === 0`
branch of the source is unreachable. -/
theorem parse_empty_text_errors :
    parsePipeline "" false = .error "Unknown command: "
      ∧ parsePipeline " " false = .error "Unknown command: "
      ∧ parsePipeline "  " false = .error "Unknown command: "
      ∧ parsePipeline "" true = .error "Unknown command: " :=
  ⟨rfl, rfl, rfl, rfl⟩

/-- C3: for every accepted direction argument, the `sort` stage returns a
permutation of its input that is sorted non-decreasing under the
numeric-aware comparator for `[]`/`asc` and non-increasing (the reversed
comparator) for `-d`/`desc`. -/
theorem sort_stage_sorted_perm (args : List String) (p : Pipe)
    (hok : sort args = .ok p) (L : List String) :
    (runPipe p L).Perm L
      ∧ ((args = [] ∨ args = ["asc"]) → List.Sorted collatorLe (runPipe p L))
      ∧ ((args = ["-d"] ∨ args = ["desc"]) → List.Sorted collatorGe (runPipe p L)) := by
  unfold sort at hok
  by_cases h1 : args = [] ∨ args = ["asc"]
  · rw [if_pos h1] at hok
    injection hok with hok
    subst hok
    refine ⟨List.perm_insertionSort _ _, fun _ => List.sorted_insertionSort _ _,
      fun h2 => ?_⟩
    rcases h1 with rfl | rfl <;> rcases h2 with h2 | h2 <;> simp at h2
  · rw [if_neg h1] at hok
    by_cases h2 : args = ["-d"] ∨ args = ["desc"]
    · rw [if_pos h2] at hok
      injection hok with hok
      subst hok
      exact ⟨List.perm_insertionSort _ _, fun h1' => absurd h1' h1,
        fun _ => List.sorted_insertionSort _ _⟩
    · rw [if_neg h2] at hok
      simp at hok

/-- C3, witness: the default direction sorts `["item2", "item10", "item1"]`
to `["item1", "item2", "item10"]` (numeric-aware, not lexicographic), a
permutation sorted under the comparator. -/
theorem sort_stage_sorted_perm_witness :
    sort [] = .ok Pipe.sortAsc
      ∧ runPipe Pipe.sortAsc ["item2", "item10", "item1"] = ["item1", "item2", "item10"]
      ∧ (runPipe Pipe.sortAsc ["item2", "item10", "item1"]).Perm ["item2", "item10", "item1"]
      ∧ List.Sorted collatorLe (runPipe Pipe.sortAsc ["item2", "item10", "item1"]) :=
  ⟨rfl, by decide, (sort_stage_sorted_perm [] Pipe.sortAsc rfl _).1,
    (sort_stage_sorted_perm [] Pipe.sortAsc rfl _).2.1 (Or.inl rfl)⟩

/-- C4: parsing with the check flag set returns the identity pipeline
whenever parsing without it succeeds (never the real stages), surfaces the
same error whenever parsing without it fails, and running the identity
pipeline returns the input unchanged. -/
theorem check_mode_identity (text : String) :
    parsePipeline text true = (parsePipeline text false).map (fun _ => NOOP)
      ∧ ∀ L, runPipelineE NOOP L = .ok L := by
  constructor
  · unfold parsePipeline
    cases h : parseStages (pipeStrings text) with
    | error e => rfl
    | ok ps =>
      simp only [Bool.true_or, Bool.false_or, if_true]
      split <;> rfl
  · intro L
    rfl

/-- C10: validation mode and execution mode reject exactly the same
pipeline texts, with the same error. -/
theorem check_mode_error_agreement (text e : String) :
    parsePipeline text true = .error e ↔ parsePipeline text false = .error e := by
  unfold parsePipeline
  cases parseStages (pipeStrings text) with
  | error e' => exact Iff.rfl
  | ok ps =>
    simp only [Bool.true_or, Bool.false_or, if_true]
    constructor
    · intro h
      exact absurd h (by simp)
    · intro h
      split at h <;> exact absurd h (by simp)

/-- C5, counterexample: `"sort -x | frob"` contains a stage (`frob`) whose
command name is not a registry key, yet parse reports the earlier stage's
`Invalid arguments` failure, not an unknown-command error carrying `frob`;
and `"valueOf"` is not a registry key either, yet its lookup finds the
inherited `Object.prototype.valueOf`, whose call throws a `TypeError`
rather than the unknown-command error. -/
theorem unknown_command_not_reported_cex :
    parsePipeline "sort -x | frob" false = .error "Invalid arguments"
      ∧ PIPES "frob" = Lookup.undefined
      ∧ parsePipeline "sort -x | frob" false ≠ .error "Unknown command: frob"
      ∧ parsePipeline "valueOf" false
          = .error "Cannot convert undefined or null to object"
      ∧ parsePipeline "valueOf" false ≠ .error "Unknown command: valueOf" := by
  refine ⟨rfl, rfl, fun h => ?_, rfl, fun h => ?_⟩
  · rw [show parsePipeline "sort -x | frob" false = .error "Invalid arguments" from rfl,
      Except.error.injEq] at h
    exact absurd h (by decide)
  · rw [show parsePipeline "valueOf" false
        = .error "Cannot convert undefined or null to object" from rfl,
      Except.error.injEq] at h
    exact absurd h (by decide)

/-- C5 (amended): when the FIRST failing stage of a pipeline text is one
whose command name fails the registry lookup entirely — it is neither an
own registry key nor the name of a member inherited from
`Object.prototype` — and every earlier stage parses successfully, parse
returns the unknown-command error carrying that stage's name, regardless
of the check flag, and no later stage's factory is invoked; leading,
trailing, or doubled pipe characters yield an empty stage substring whose
command name is the empty string, which fails the lookup entirely and is
reported the same way. -/
theorem unknown_command_first_failure (text : String) (check : Bool) (i : Nat)
    (hi : i < (pipeStrings text).length)
    (hok : ∀ j, j < i → ∃ v, parsePipe ((pipeStrings text).getD j "") = .ok v)
    (hmiss : PIPES (pipeName ((pipeStrings text).getD i "")) = Lookup.undefined) :
    parsePipeline text check
      = .error ("Unknown command: " ++ pipeName ((pipeStrings text).getD i "")) := by
  unfold parsePipeline
  rw [parseStages_first_error _ i _ hi hok (parsePipe_unknown hmiss)]

/-- C5, witness: in `"sort | frob | uniq"` the first failing stage is
`frob`, and parse reports `Unknown command: frob`; a leading pipe gives an
empty first stage reported as `Unknown command: `. -/
theorem unknown_command_first_failure_witness :
    parsePipeline "sort | frob | uniq" false = .error "Unknown command: frob"
      ∧ parsePipeline "| sort" false = .error "Unknown command: " := by
  constructor
  · have h := unknown_command_first_failure "sort | frob | uniq" false 1 (by decide)
      (fun j hj => by
        have hj0 : j = 0 := by omega
        subst hj0
        exact ⟨PipeVal.fn Pipe.sortAsc, rfl⟩)
      rfl
    exact h
  · have h := unknown_command_first_failure "| sort" false 0 (by decide)
      (fun j hj => absurd hj (by omega)) rfl
    exact h

/-- C6: the `sort` factory succeeds exactly on the argument lists `[]`,
`["asc"]`, `["-d"]`, `["desc"]`, fails with `Invalid arguments` on every
other list, and parsing `"sort -x"` returns that error. -/
theorem sort_factory_args_exact :
    (∀ args : List String,
        (∃ p, sort args = .ok p)
          ↔ args = [] ∨ args = ["asc"] ∨ args = ["-d"] ∨ args = ["desc"])
      ∧ (∀ args : List String,
          ¬(args = [] ∨ args = ["asc"] ∨ args = ["-d"] ∨ args = ["desc"]) →
            sort args = .error "Invalid arguments")
      ∧ parsePipeline "sort -x" false = .error "Invalid arguments" := by
  refine ⟨fun args => ⟨fun ⟨p, hp⟩ => ?_, fun h => ?_⟩, fun args h => ?_, rfl⟩
  · unfold sort at hp
    split at hp
    · tauto
    · split at hp
      · tauto
      · simp at hp
  · rcases h with rfl | rfl | rfl | rfl
    · exact ⟨Pipe.sortAsc, rfl⟩
    · exact ⟨Pipe.sortAsc, rfl⟩
    · exact ⟨Pipe.sortDesc, rfl⟩
    · exact ⟨Pipe.sortDesc, rfl⟩
  · have h1 : ¬(args = [] ∨ args = ["asc"]) := fun hc => h (by tauto)
    have h2 : ¬(args = ["-d"] ∨ args = ["desc"]) := fun hc => h (by tauto)
    unfold sort
    rw [if_neg h1, if_neg h2]

/-- C6, witness: `["-x"]` is rejected with `Invalid arguments` and
`["desc"]` is accepted. -/
theorem sort_factory_args_exact_witness :
    sort ["-x"] = .error "Invalid arguments" ∧ ∃ p, sort ["desc"] = .ok p :=
  ⟨sort_factory_args_exact.2.1 ["-x"] (by decide),
    (sort_factory_args_exact.1 ["desc"]).mpr (by decide)⟩

/-- C7: executing a parsed pipeline is the left-to-right fold of its
stages over the input lines; `"uniq | sort"` on `["b", "a", "b"]` yields
`["a", "b"]`. -/
theorem pipeline_composition :
    parsePipeline "uniq | sort" false
        = .ok [PipeVal.fn Pipe.uniq, PipeVal.fn Pipe.sortAsc]
      ∧ runPipeline [Pipe.uniq, Pipe.sortAsc] ["b", "a", "b"] = ["a", "b"]
      ∧ (∀ (p : Pipe) (ps : List Pipe) (L : List String),
          runPipeline (p :: ps) L = runPipeline ps (runPipe p L))
      ∧ (∀ L : List String, runPipeline [] L = L) :=
  ⟨rfl, by decide, fun _ _ _ => rfl, fun _ => rfl⟩

/-- C8: the stage built by the `help` factory, on any argument list,
returns the input lines unchanged (its help-display side effect is outside
the data path). -/
theorem help_stage_identity (args L : List String) :
    ∃ p, help args = .ok p ∧ runPipe p L = L :=
  ⟨Pipe.help, rfl, rfl⟩

/-- C9, counterexample: parse of `"toString"` succeeds — the registry
lookup finds the inherited `Object.prototype.toString`, whose call in
strict module code returns the string `"[object Undefined]"` — and
executing the returned pipeline throws, because the parsed pipe is not a
function; so a successfully parsed pipeline can error at execution time. -/
theorem execution_error_after_parse_cex :
    parsePipeline "toString" false = .ok [PipeVal.str "[object Undefined]"]
      ∧ runPipelineE [PipeVal.str "[object Undefined]"] ["a"]
          = .error "pipe is not a function" :=
  ⟨rfl, rfl⟩

/-- C9 (amended): executing a successfully parsed pipeline never produces
an error provided every stage of the parse result was built by a registry
factory: the line transforms of `sort`, `uniq` and `help` have no failing
branch, so for such pipelines all failures happen at parse/construction
time. (Parse can however also succeed through a member inherited from
`Object.prototype`, and executing such a pipeline throws a `TypeError`.) -/
theorem execution_no_error (text : String) (ps : List Pipe)
    (_hparse : parsePipeline text false = .ok (ps.map PipeVal.fn))
    (L : List String) :
    runPipelineE (ps.map PipeVal.fn) L = .ok (runPipeline ps L) := by
  clear _hparse
  induction ps generalizing L with
  | nil => rfl
  | cons p rest ih =>
    have hstep : runPipelineE ((p :: rest).map PipeVal.fn) L =
        match runPipeValE (PipeVal.fn p) L with
        | Except.error e => Except.error e
        | Except.ok out => runPipelineE (rest.map PipeVal.fn) out := rfl
    have hpipe : runPipeValE (PipeVal.fn p) L = .ok (runPipe p L) := runPipeE_ok p L
    rw [hstep, hpipe]
    exact ih (runPipe p L)

/-- C9, witness: the parsed pipeline `"uniq"` consists of factory-built
stages and runs without error on `["a", "a"]`. -/
theorem execution_no_error_witness :
    parsePipeline "uniq" false = .ok ([Pipe.uniq].map PipeVal.fn)
      ∧ runPipelineE ([Pipe.uniq].map PipeVal.fn) ["a", "a"]
          = .ok (runPipeline [Pipe.uniq] ["a", "a"])
      ∧ runPipeline [Pipe.uniq] ["a", "a"] = ["a"] :=
  ⟨rfl, execution_no_error "uniq" [Pipe.uniq] rfl ["a", "a"], by decide⟩

/-! ### Concrete evaluations of the embedding -/
example : splitOnChar '|' "".data = [[]] := by decide
example : parsePipeline "" false = .error "Unknown command: " := rfl
example : parsePipeline "uniq | sort" false
    = .ok [PipeVal.fn .uniq, PipeVal.fn .sortAsc] := rfl
example : runPipeline [.uniq, .sortAsc] ["b", "a", "b"] = ["a", "b"] := by decide
example : uniqRun ["b", "1"] = ["1", "b"] := by decide
example : uniqRun ["__proto__", "a", "a"] = ["a"] := by decide
example : sortAscRun ["item2", "item10", "item1"] = ["item1", "item2", "item10"] := by decide
example : parsePipeline "sort -x" false = .error "Invalid arguments" := rfl
example : parsePipeline "sort desc" false = .ok [PipeVal.fn .sortDesc] := rfl
example : parsePipeline "  " false = .error "Unknown command: " := rfl
example : parsePipeline "sort | frob" false = .error "Unknown command: frob" := rfl
example : parsePipeline "constructor x" false = .ok [PipeVal.arr ["x"]] := rfl
example : parsePipeline "__proto__" false = .error "factory is not a function" := rfl
example : parsePipeline "\x0Bsort" false = .ok [PipeVal.fn .sortAsc] := rfl
example : parsePipeline " " false = .error "Unknown command: " := rfl

end Textshell
